import Mathlib

/-!
# Ferrox routing core — shallow embedding

A shallow embedding of `src/lib.rs` of the `ferrox` crate: a minimal
registration-and-dispatch layer over an external HTTP engine (axum).

The embedding covers:
* the `RouteRegistration` data model and the global route registry
  (`GLOBAL_ROUTE_REGISTRY`, a `HashMap<(String, String), RouteHandler>`),
* `Server::start`'s two loops: registry population (lines 62–80) and
  router binding (lines 88–132), including the per-iteration invocation
  of `registration.handler_fn` in each loop,
* the `generic_handler` closure (lines 94–119): conversion of path and
  query parameters into string-valued JSON objects, defaulting of an
  absent body to JSON null, and the direct serialization of the
  handler's JSON return value,
* `not_found_handler` (lines 150–159) and its `ApiResponse` envelope.

External-engine behaviour that the Rust source delegates to axum
(template pattern matching, the malformed-body rejection produced by the
`Option<Json<Value>>` extractor, the fallback wiring) is modelled from
the spec, as marked on the individual definitions.

Factory invocations of `handler_fn` are tracked explicitly: the server
state carries a `factoryLog`, one entry (the declaration's position in
the declaration list) per invocation, and each produced handler is
tagged with the value of the invocation counter at the moment of the
call, so that "which invocation produced this handler" is expressible.
-/

set_option autoImplicit false

namespace Ferrox

/-- JSON values (`serde_json::Value`); objects keep their field list
explicit so field order of serialized structs is expressible. -/
inductive Json where
  | null
  | bool (b : Bool)
  | num (n : Int)
  | str (s : String)
  | arr (elems : List Json)
  | obj (fields : List (String × Json))

/-- `RouteHandler`: a function over three JSON argument groups
(path identifiers, query arguments, body payload) returning a JSON
response body (`src/lib.rs` line 43). -/
abbrev Handler : Type := Json → Json → Json → Json

/-- `RouteRegistration` (`src/lib.rs` lines 28–32): a method string, a
path template, and a zero-argument factory producing a handler. -/
structure RouteRegistration where
  method : String
  path : String
  handler_fn : Unit → Handler

/-- A handler together with the factory-invocation counter value at the
moment `handler_fn` was called, so distinct invocations of the same
factory are distinguishable. -/
structure TaggedHandler where
  tag : Nat
  handler : Handler

/-- The global registry's contents: association list modelling
`HashMap<(String, String), RouteHandler>` (`src/lib.rs` line 38). -/
abbrev Registry : Type := List ((String × String) × TaggedHandler)

/-- `HashMap::insert`: the new binding replaces any existing binding of
the same key. -/
def registryInsert (k : String × String) (v : TaggedHandler) (reg : Registry) : Registry :=
  (k, v) :: reg.filter (fun e => e.1 ≠ k)

/-- `HashMap::get`: the binding currently stored under `k`, if any. -/
def lookupRegistry (reg : Registry) (k : String × String) : Option TaggedHandler :=
  (reg.find? (fun e => e.1 = k)).map (·.2)

/-- A route bound into the axum `Router` (`router.route(path, ...)`,
`src/lib.rs` lines 122–129): the method, the path template, and the
handler captured by the `generic_handler` closure at binding time. -/
structure RouteEntry where
  method : String
  template : String
  tag : Nat
  handler : Handler

/-- Process-wide server state after (or during) `Server::start`:
the global registry, the axum router's bound routes, and the log of
`handler_fn` invocations (each entry is the position, in the
declaration list, of the declaration whose factory was called). -/
structure ServerState where
  registry : Registry
  router : List RouteEntry
  factoryLog : List Nat

/-- State at process start: empty registry, empty router, no factory
invocations yet. -/
def initialState : ServerState := ⟨[], [], []⟩

/-- The seven method strings recognized by the binding `match`
(`src/lib.rs` lines 122–131). -/
def sevenMethods : List String :=
  ["GET", "POST", "PUT", "PATCH", "DELETE", "HEAD", "OPTIONS"]

/-- First loop of `Server::start` (lines 62–80): for each registration,
call its `handler_fn` and insert the result into the global registry
under `(method, path)`. `i` is the position of the head of `decls` in
the full declaration list. -/
def populateLoop (decls : List RouteRegistration) (i : Nat) (st : ServerState) : ServerState :=
  match decls with
  | [] => st
  | d :: ds =>
      populateLoop ds (i + 1)
        { st with
          registry := registryInsert (d.method, d.path)
            ⟨st.factoryLog.length, d.handler_fn ()⟩ st.registry,
          factoryLog := st.factoryLog ++ [i] }

/-- Second loop of `Server::start` (lines 88–132): for each
registration, call its `handler_fn` again (line 91), then bind a route
for the seven recognized methods; any other method string falls into
the `_ => {}` arm and binds nothing. The factory is invoked before the
`match`, hence also for unbound methods. -/
def bindLoop (decls : List RouteRegistration) (i : Nat) (st : ServerState) : ServerState :=
  match decls with
  | [] => st
  | d :: ds =>
      let tag := st.factoryLog.length
      let h := d.handler_fn ()
      let st' := { st with factoryLog := st.factoryLog ++ [i] }
      bindLoop ds (i + 1)
        (if d.method ∈ sevenMethods
          then { st' with router := st'.router ++ [⟨d.method, d.path, tag, h⟩] }
          else st')

/-- `Server::start` up to the point the listener starts: populate the
registry from all collected declarations, then bind the router. -/
def serverStart (decls : List RouteRegistration) : ServerState :=
  bindLoop decls 0 (populateLoop decls 0 initialState)

/-- The request body as the engine hands it to the extractor stage:
absent, present but not parseable as JSON, or parsed. -/
inductive RequestBody where
  | absent
  | malformed
  | wellFormed (j : Json)

/-- An incoming request as seen by the core: method, concrete path,
query key/value pairs (string-valued, as the engine supplies them), and
body. -/
structure Request where
  method : String
  path : String
  query : List (String × String)
  body : RequestBody

/-- Response status classes relevant to the core: handler success,
the fallback's not-found, and the engine's client error for a
malformed body. -/
inductive Status where
  | ok
  | notFound
  | clientError
  deriving Repr, DecidableEq

/-- A transport response: status class plus serialized JSON body. -/
structure Response where
  status : Status
  body : Json

/-- Serialization of `ApiResponse` (`src/lib.rs` lines 19–24): serde
emits the fields in declaration order, `None` as JSON null. -/
def apiResponseJson (success : Bool) (data : Json) (message : String) : Json :=
  Json.obj [("success", Json.bool success), ("data", data), ("message", Json.str message)]

/-- `not_found_handler` (`src/lib.rs` lines 150–159): not-found status
with the error envelope naming the requested path. -/
def notFoundResponse (path : String) : Response :=
  ⟨Status.notFound, apiResponseJson false Json.null ("Route " ++ path ++ " not found")⟩

/-- Modelled from the spec: the client-error response the external HTTP
engine produces when a present request body fails to parse as JSON.
The spec fixes only the status class ("client-error response; exact
code is an external-engine convention"), not the body, which the model
leaves as JSON null. -/
def engineBodyRejection : Response :=
  ⟨Status.clientError, Json.null⟩

/-- Collection of string key/value pairs into a
`HashMap<String, String>` (the `Path` and `Query` extractors): a later
binding of a key replaces an earlier one. -/
def hashMapOf (ps : List (String × String)) : List (String × String) :=
  ps.foldl (fun acc kv => acc.filter (fun e => e.1 ≠ kv.1) ++ [kv]) []

/-- Conversion of a parameter map to a JSON object whose values are all
JSON strings (`src/lib.rs` lines 100–104 for path parameters, 107–111
for query parameters: every value is wrapped in
`serde_json::Value::String`). -/
def paramsContainer (ps : List (String × String)) : Json :=
  Json.obj ((hashMapOf ps).map (fun kv => (kv.1, Json.str kv.2)))

/-- `body.map(|Json(v)| v).unwrap_or(serde_json::Value::Null)`
(`src/lib.rs` line 114). -/
def bodyValue (b : Option Json) : Json :=
  b.getD Json.null

/-- The JSON value the handler receives as its third argument, as a
function of the request body; the malformed case never reaches the
handler (the engine rejects first), so its value here is immaterial. -/
def parsedBody : RequestBody → Json
  | RequestBody.absent => bodyValue none
  | RequestBody.malformed => bodyValue none
  | RequestBody.wellFormed j => bodyValue (some j)

/-- Splitting of a path (as a character list) on the slash separator,
mirroring how a path string `/a/b` yields segments `["", "a", "b"]`. -/
def splitOnSlash : List Char → List (List Char)
  | [] => [[]]
  | c :: cs =>
    match splitOnSlash cs with
    | [] => [[c]]
    | r :: rs => if c = '/' then [] :: r :: rs else (c :: r) :: rs

/-- A template segment of the shape `\x7bname\x7d`: a named
placeholder. -/
def isPlaceholder (t : List Char) : Bool :=
  match t with
  | '{' :: rest => rest.getLast? == some '}'
  | _ => false

/-- The name of a placeholder segment, the characters between the
braces. -/
def placeholderName (t : List Char) : String :=
  match t with
  | '{' :: rest => String.mk rest.dropLast
  | _ => String.mk t

/-- Modelled from the spec: the engine's matching of one template
segment list against one concrete segment list, binding each named
placeholder to the concrete segment as a string (the engine supplies
matched path parameters as string-valued key/value pairs). -/
def segMatch : List (List Char) → List (List Char) → Option (List (String × String))
  | [], [] => some []
  | t :: ts, s :: ss =>
    match segMatch ts ss with
    | none => none
    | some ps =>
      if isPlaceholder t then some ((placeholderName t, String.mk s) :: ps)
      else if t = s then some ps
      else none
  | _, _ => none

/-- Modelled from the spec: the engine's route matching — find the
bound route whose method equals the request method and whose template
matches the request path, together with the extracted path
parameters. -/
def findRoute (router : List RouteEntry) (method path : String) :
    Option (RouteEntry × List (String × String)) :=
  match router with
  | [] => none
  | e :: es =>
    if e.method = method then
      match segMatch (splitOnSlash e.template.data) (splitOnSlash path.data) with
      | some ps => some (e, ps)
      | none => findRoute es method path
    else findRoute es method path

/-- One request through the configured server: the engine matches the
route (falling back to `not_found_handler` when nothing matches, line
134), the extractor stage rejects a malformed body before the handler
runs, and otherwise `generic_handler` (lines 94–119) builds the three
containers, invokes the bound handler, and serializes its return value
directly as the response body. The returned state is the server state
after the request. -/
def handleRequest (st : ServerState) (req : Request) : Response × ServerState :=
  match findRoute st.router req.method req.path with
  | none => (notFoundResponse req.path, st)
  | some (e, ps) =>
    match req.body with
    | RequestBody.malformed => (engineBodyRejection, st)
    | b =>
      (⟨Status.ok,
        e.handler (paramsContainer ps) (paramsContainer req.query) (parsedBody b)⟩, st)

end Ferrox

namespace Ferrox

/-! ## Registry lemmas -/

theorem find_filter_of_ne (reg : Registry) (k k' : String × String) (h : k' ≠ k) :
    (reg.filter (fun e => e.1 ≠ k)).find? (fun e => e.1 = k')
      = reg.find? (fun e => e.1 = k') := by
  induction reg with
  | nil => rfl
  | cons e es ih =>
    by_cases he : e.1 = k
    · have h2 : ¬ e.1 = k' := fun hc => h (hc.symm.trans he)
      rw [List.filter_cons_of_neg (by simpa using he),
        List.find?_cons_of_neg es (by simpa using h2), ih]
    · rw [List.filter_cons_of_pos (by simpa using he)]
      by_cases he' : e.1 = k'
      · rw [List.find?_cons_of_pos _ (by simpa using he'),
          List.find?_cons_of_pos _ (by simpa using he')]
      · rw [List.find?_cons_of_neg _ (by simpa using he'),
          List.find?_cons_of_neg _ (by simpa using he'), ih]

theorem lookupRegistry_insert_self (reg : Registry) (k : String × String) (v : TaggedHandler) :
    lookupRegistry (registryInsert k v reg) k = some v := by
  simp [lookupRegistry, registryInsert, List.find?_cons]

theorem lookupRegistry_insert_of_ne (reg : Registry) (k k' : String × String)
    (v : TaggedHandler) (h : k' ≠ k) :
    lookupRegistry (registryInsert k v reg) k' = lookupRegistry reg k' := by
  have hk : ¬ k = k' := fun hk => h hk.symm
  unfold lookupRegistry registryInsert
  rw [List.find?_cons_of_neg _ (by simpa using hk), find_filter_of_ne reg k k' h]

/-! ## Population-loop lemmas -/

theorem populateLoop_router (decls : List RouteRegistration) (i : Nat) (st : ServerState) :
    (populateLoop decls i st).router = st.router := by
  induction decls generalizing i st with
  | nil => rfl
  | cons d ds ih => simp [populateLoop, ih]

theorem populateLoop_log (decls : List RouteRegistration) (i : Nat) (st : ServerState) :
    (populateLoop decls i st).factoryLog = st.factoryLog ++ List.range' i decls.length := by
  induction decls generalizing i st with
  | nil => simp [populateLoop]
  | cons d ds ih =>
    simp [populateLoop, ih, List.range'_succ]

theorem populateLoop_append (xs ys : List RouteRegistration) (i : Nat) (st : ServerState) :
    populateLoop (xs ++ ys) i st = populateLoop ys (i + xs.length) (populateLoop xs i st) := by
  induction xs generalizing i st with
  | nil => simp [populateLoop]
  | cons d ds ih =>
    simp only [List.cons_append, populateLoop, List.length_cons, List.append_eq]
    rw [ih]
    have harith : i + 1 + ds.length = i + (ds.length + 1) := by omega
    rw [harith]

theorem populateLoop_lookup_of_not_mem (decls : List RouteRegistration) (i : Nat)
    (st : ServerState) (k : String × String)
    (h : ∀ d ∈ decls, (d.method, d.path) ≠ k) :
    lookupRegistry (populateLoop decls i st).registry k = lookupRegistry st.registry k := by
  induction decls generalizing i st with
  | nil => rfl
  | cons d ds ih =>
    have hd : (d.method, d.path) ≠ k := h d (List.mem_cons_self d ds)
    have hk : k ≠ (d.method, d.path) := fun hk => hd hk.symm
    simp only [populateLoop]
    rw [ih _ _ (fun d' hd' => h d' (List.mem_cons_of_mem d hd'))]
    exact lookupRegistry_insert_of_ne _ _ _ _ hk

/-! ## Binding-loop lemmas -/

theorem bindLoop_registry (decls : List RouteRegistration) (i : Nat) (st : ServerState) :
    (bindLoop decls i st).registry = st.registry := by
  induction decls generalizing i st with
  | nil => rfl
  | cons d ds ih =>
    simp only [bindLoop]
    split <;> simp [ih]

theorem bindLoop_log (decls : List RouteRegistration) (i : Nat) (st : ServerState) :
    (bindLoop decls i st).factoryLog = st.factoryLog ++ List.range' i decls.length := by
  induction decls generalizing i st with
  | nil => simp [bindLoop]
  | cons d ds ih =>
    simp only [bindLoop]
    split <;> simp [ih, List.range'_succ]

/-- The routes the binding loop appends when started with factory
counter `t`: one entry per declaration with a recognized method, tagged
with the counter value at its own iteration; unrecognized methods
contribute nothing. -/
def boundRoutes (decls : List RouteRegistration) (t : Nat) : List RouteEntry :=
  match decls with
  | [] => []
  | d :: ds =>
    (if d.method ∈ sevenMethods then [⟨d.method, d.path, t, d.handler_fn ()⟩] else [])
      ++ boundRoutes ds (t + 1)

theorem bindLoop_router (decls : List RouteRegistration) (i : Nat) (st : ServerState) :
    (bindLoop decls i st).router = st.router ++ boundRoutes decls st.factoryLog.length := by
  induction decls generalizing i st with
  | nil => simp [bindLoop, boundRoutes]
  | cons d ds ih =>
    simp only [bindLoop, boundRoutes]
    split_ifs with h
    · simp [h, ih, List.append_assoc]
    · simp [h, ih]

theorem mem_boundRoutes (decls : List RouteRegistration) (t : Nat) (e : RouteEntry)
    (he : e ∈ boundRoutes decls t) :
    ∃ j d, decls.get? j = some d ∧ e.method = d.method ∧ e.template = d.path ∧
      e.tag = t + j ∧ e.handler = d.handler_fn () ∧ d.method ∈ sevenMethods := by
  induction decls generalizing t with
  | nil => simp [boundRoutes] at he
  | cons d ds ih =>
    simp only [boundRoutes, List.mem_append] at he
    rcases he with he | he
    · by_cases hm : d.method ∈ sevenMethods
      · simp [hm] at he
        exact ⟨0, d, rfl, by simp [he], by simp [he], by simp [he], by simp [he], hm⟩
      · simp [hm] at he
    · rcases ih (t + 1) he with ⟨j, d', hj, h1, h2, h3, h4, h5⟩
      exact ⟨j + 1, d', by simpa using hj, h1, h2, by omega, h4, h5⟩

/-! ## `serverStart` characterization -/

theorem serverStart_registry (decls : List RouteRegistration) :
    (serverStart decls).registry = (populateLoop decls 0 initialState).registry :=
  bindLoop_registry decls 0 _

theorem serverStart_router (decls : List RouteRegistration) :
    (serverStart decls).router = boundRoutes decls decls.length := by
  rw [serverStart, bindLoop_router, populateLoop_router, populateLoop_log]
  simp [initialState]

theorem serverStart_log (decls : List RouteRegistration) :
    (serverStart decls).factoryLog
      = List.range decls.length ++ List.range decls.length := by
  rw [serverStart, bindLoop_log, populateLoop_log]
  simp [initialState, List.range_eq_range']

/-! ## Dispatch lemmas -/

theorem handleRequest_state (st : ServerState) (req : Request) :
    (handleRequest st req).2 = st := by
  unfold handleRequest
  rcases h : findRoute st.router req.method req.path with _ | ⟨e, ps⟩
  · rfl
  · cases req.body <;> rfl

theorem handleRequest_unmatched (st : ServerState) (req : Request)
    (h : findRoute st.router req.method req.path = none) :
    (handleRequest st req).1 = notFoundResponse req.path := by
  unfold handleRequest
  rw [h]

theorem handleRequest_matched (st : ServerState) (req : Request) (e : RouteEntry)
    (ps : List (String × String))
    (h : findRoute st.router req.method req.path = some (e, ps))
    (hb : req.body ≠ RequestBody.malformed) :
    (handleRequest st req).1
      = ⟨Status.ok,
          e.handler (paramsContainer ps) (paramsContainer req.query) (parsedBody req.body)⟩ := by
  cases hbody : req.body with
  | absent => unfold handleRequest; rw [h, hbody]
  | malformed => exact absurd hbody hb
  | wellFormed j => unfold handleRequest; rw [h, hbody]

theorem handleRequest_malformed (st : ServerState) (req : Request) (e : RouteEntry)
    (ps : List (String × String))
    (h : findRoute st.router req.method req.path = some (e, ps))
    (hb : req.body = RequestBody.malformed) :
    (handleRequest st req).1 = engineBodyRejection := by
  unfold handleRequest
  rw [h, hb]

theorem handleRequest_registry_congr (st : ServerState) (req : Request) (reg : Registry) :
    (handleRequest { st with registry := reg } req).1 = (handleRequest st req).1 := by
  unfold handleRequest
  rcases h : findRoute st.router req.method req.path with _ | ⟨e, ps⟩
  · simp only [h]
  · simp only [h]
    cases req.body <;> rfl

theorem paramsContainer_strings (ps : List (String × String)) :
    ∃ fields, paramsContainer ps = Json.obj fields ∧
      ∀ f ∈ fields, ∃ s, f.2 = Json.str s := by
  refine ⟨_, rfl, ?_⟩
  intro f hf
  rcases List.mem_map.mp hf with ⟨kv, _, rfl⟩
  exact ⟨kv.2, rfl⟩

end Ferrox

namespace Ferrox

/-! ## Registry tag bounds (population-phase invocations) -/

theorem mem_registryInsert (k : String × String) (v : TaggedHandler) (reg : Registry)
    (e : (String × String) × TaggedHandler) (he : e ∈ registryInsert k v reg) :
    e = (k, v) ∨ e ∈ reg := by
  rcases List.mem_cons.mp he with h | h
  · exact Or.inl h
  · exact Or.inr (List.mem_of_mem_filter h)

theorem populateLoop_registry_tags (decls : List RouteRegistration) (i : Nat)
    (st : ServerState) (e : (String × String) × TaggedHandler)
    (he : e ∈ (populateLoop decls i st).registry) :
    e ∈ st.registry ∨ e.2.tag < st.factoryLog.length + decls.length := by
  induction decls generalizing i st with
  | nil => exact Or.inl he
  | cons d ds ih =>
    rcases ih _ _ (by simpa [populateLoop] using he) with h | h
    · rcases mem_registryInsert _ _ _ _ h with h' | h'
      · right
        rw [h']
        show st.factoryLog.length < st.factoryLog.length + (d :: ds).length
        simp only [List.length_cons]
        omega
      · exact Or.inl h'
    · right
      simp only [List.length_append, List.length_cons, List.length_nil] at h ⊢
      omega

theorem lookupRegistry_tag_lt (decls : List RouteRegistration) (k : String × String)
    (v : TaggedHandler) (h : lookupRegistry (serverStart decls).registry k = some v) :
    v.tag < decls.length := by
  rw [serverStart_registry] at h
  rcases Option.map_eq_some'.mp h with ⟨a, hfind, hv⟩
  have hmem := List.mem_of_find?_eq_some hfind
  rcases populateLoop_registry_tags decls 0 initialState a hmem with ha | ha
  · simp [initialState] at ha
  · rw [← hv]
    simpa [initialState] using ha

end Ferrox

namespace Ferrox

/-! ## Claims -/

/-- C1: for every incoming request whose (method, path) matches no bound
route, the response is the not-found status together with exactly the
error envelope `{success: false, data: null, message: "Route <path> not
found"}`, `<path>` being the requested path. -/
theorem C1_unmatched_route_envelope (st : ServerState) (req : Request)
    (h : findRoute st.router req.method req.path = none) :
    (handleRequest st req).1
      = ⟨Status.notFound,
          Json.obj [("success", Json.bool false), ("data", Json.null),
            ("message", Json.str ("Route " ++ req.path ++ " not found"))]⟩ :=
  handleRequest_unmatched st req h

/-- C1 witness: a server with no declarations answers `GET /missing`
with the not-found envelope naming `/missing`. -/
theorem C1_unmatched_route_envelope_witness :
    findRoute (serverStart []).router "GET" "/missing" = none ∧
    (handleRequest (serverStart [])
        ⟨"GET", "/missing", [], RequestBody.absent⟩).1
      = ⟨Status.notFound,
          Json.obj [("success", Json.bool false), ("data", Json.null),
            ("message", Json.str ("Route " ++ "/missing" ++ " not found"))]⟩ :=
  ⟨rfl, C1_unmatched_route_envelope (serverStart [])
    ⟨"GET", "/missing", [], RequestBody.absent⟩ rfl⟩

/-- C2: for every request matched to a bound route (and not rejected
for a malformed body), the response is a success status whose body is
exactly the JSON value the bound handler returns — no
`{success, data, message}` envelope is applied. -/
theorem C2_matched_response_unwrapped (st : ServerState) (req : Request)
    (e : RouteEntry) (ps : List (String × String))
    (h : findRoute st.router req.method req.path = some (e, ps))
    (hb : req.body ≠ RequestBody.malformed) :
    (handleRequest st req).1.status = Status.ok ∧
    (handleRequest st req).1.body
      = e.handler (paramsContainer ps) (paramsContainer req.query) (parsedBody req.body) := by
  rw [handleRequest_matched st req e ps h hb]
  exact ⟨rfl, rfl⟩

/-- C2 witness: one `GET /items/{id}` route whose handler echoes its
path container; `GET /items/7` yields exactly the handler's return
value with a success status. -/
theorem C2_matched_response_unwrapped_witness :
    findRoute (serverStart [⟨"GET", "/items/{id}", fun _ => fun p _ _ => p⟩]).router
        "GET" "/items/7"
      = some (⟨"GET", "/items/{id}", 1, fun p _ _ => p⟩, [("id", "7")]) ∧
    (RequestBody.absent ≠ RequestBody.malformed) ∧
    ((handleRequest (serverStart [⟨"GET", "/items/{id}", fun _ => fun p _ _ => p⟩])
        ⟨"GET", "/items/7", [], RequestBody.absent⟩).1.status = Status.ok ∧
      (handleRequest (serverStart [⟨"GET", "/items/{id}", fun _ => fun p _ _ => p⟩])
        ⟨"GET", "/items/7", [], RequestBody.absent⟩).1.body
        = (fun p _ _ => p : Handler) (paramsContainer [("id", "7")]) (paramsContainer [])
            (parsedBody RequestBody.absent)) :=
  ⟨rfl, fun hc => RequestBody.noConfusion hc,
    C2_matched_response_unwrapped
      (serverStart [⟨"GET", "/items/{id}", fun _ => fun p _ _ => p⟩])
      ⟨"GET", "/items/7", [], RequestBody.absent⟩
      ⟨"GET", "/items/{id}", 1, fun p _ _ => p⟩ [("id", "7")]
      rfl (fun hc => RequestBody.noConfusion hc)⟩

/-- C3: for every matched request, a body that parsed as JSON reaches
the handler unchanged as its third argument, and an absent body reaches
the handler as JSON null. -/
theorem C3_body_argument (st : ServerState) (req : Request) (e : RouteEntry)
    (ps : List (String × String)) (j : Json)
    (h : findRoute st.router req.method req.path = some (e, ps)) :
    (req.body = RequestBody.wellFormed j →
      (handleRequest st req).1.body
        = e.handler (paramsContainer ps) (paramsContainer req.query) j) ∧
    (req.body = RequestBody.absent →
      (handleRequest st req).1.body
        = e.handler (paramsContainer ps) (paramsContainer req.query) Json.null) := by
  constructor
  · intro hb
    rw [handleRequest_matched st req e ps h (by simp [hb]), hb]
    rfl
  · intro hb
    rw [handleRequest_matched st req e ps h (by simp [hb]), hb]
    rfl

/-- C3 witness: a `POST /echo` route whose handler returns its body
argument; with body `{"x": 1}` the handler receives that object, and
with no body it receives JSON null. -/
theorem C3_body_argument_witness :
    findRoute (serverStart [⟨"POST", "/echo", fun _ => fun _ _ b => b⟩]).router
        "POST" "/echo"
      = some (⟨"POST", "/echo", 1, fun _ _ b => b⟩, []) ∧
    ((⟨"POST", "/echo", [], RequestBody.wellFormed (Json.obj [("x", Json.num 1)])⟩ :
        Request).body = RequestBody.wellFormed (Json.obj [("x", Json.num 1)]) →
      (handleRequest (serverStart [⟨"POST", "/echo", fun _ => fun _ _ b => b⟩])
          ⟨"POST", "/echo", [], RequestBody.wellFormed (Json.obj [("x", Json.num 1)])⟩).1.body
        = (fun _ _ b => b : Handler) (paramsContainer []) (paramsContainer [])
            (Json.obj [("x", Json.num 1)])) :=
  ⟨rfl,
    (C3_body_argument (serverStart [⟨"POST", "/echo", fun _ => fun _ _ b => b⟩])
      ⟨"POST", "/echo", [], RequestBody.wellFormed (Json.obj [("x", Json.num 1)])⟩
      ⟨"POST", "/echo", 1, fun _ _ b => b⟩ [] (Json.obj [("x", Json.num 1)]) rfl).1⟩

/-- C4: for every matched request (not rejected for a malformed body),
the handler's first argument is the path-parameter container: a JSON
object in which every value is a JSON string, whatever the textual
shape of the matched segment. -/
theorem C4_path_params_are_strings (st : ServerState) (req : Request)
    (e : RouteEntry) (ps : List (String × String))
    (h : findRoute st.router req.method req.path = some (e, ps))
    (hb : req.body ≠ RequestBody.malformed) :
    (handleRequest st req).1.body
      = e.handler (paramsContainer ps) (paramsContainer req.query) (parsedBody req.body) ∧
    ∃ fields, paramsContainer ps = Json.obj fields ∧
      ∀ f ∈ fields, ∃ s, f.2 = Json.str s :=
  ⟨by rw [handleRequest_matched st req e ps h hb], paramsContainer_strings ps⟩

/-- C4 witness: `GET /users/42` against a `/users/{id}` route binds the
numeric-looking segment as the JSON string "42", never a number. -/
theorem C4_path_params_are_strings_witness :
    findRoute (serverStart [⟨"GET", "/users/{id}", fun _ => fun p _ _ => p⟩]).router
        "GET" "/users/42"
      = some (⟨"GET", "/users/{id}", 1, fun p _ _ => p⟩, [("id", "42")]) ∧
    (RequestBody.absent ≠ RequestBody.malformed) ∧
    (∃ fields, paramsContainer [("id", "42")] = Json.obj fields ∧
      ∀ f ∈ fields, ∃ s, f.2 = Json.str s) ∧
    paramsContainer [("id", "42")] = Json.obj [("id", Json.str "42")] :=
  ⟨rfl, fun hc => RequestBody.noConfusion hc,
    (C4_path_params_are_strings
      (serverStart [⟨"GET", "/users/{id}", fun _ => fun p _ _ => p⟩])
      ⟨"GET", "/users/42", [], RequestBody.absent⟩
      ⟨"GET", "/users/{id}", 1, fun p _ _ => p⟩ [("id", "42")]
      rfl (fun hc => RequestBody.noConfusion hc)).2,
    rfl⟩

/-- C5: when several declarations share one (method, path) key,
population completes without error and lookup under that key afterwards
yields exactly the handler of the last such declaration processed (here
`d`, the declaration after the prefix `ds₁`), with the factory-call tag
of its population-time invocation. -/
theorem C5_duplicate_key_last_wins (ds₁ ds₂ : List RouteRegistration)
    (d : RouteRegistration)
    (_hdup : ∃ d' ∈ ds₁, (d'.method, d'.path) = (d.method, d.path))
    (hlast : ∀ d' ∈ ds₂, (d'.method, d'.path) ≠ (d.method, d.path)) :
    lookupRegistry (serverStart (ds₁ ++ d :: ds₂)).registry (d.method, d.path)
      = some ⟨ds₁.length, d.handler_fn ()⟩ := by
  rw [serverStart_registry, populateLoop_append]
  simp only [populateLoop]
  rw [populateLoop_lookup_of_not_mem _ _ _ _ hlast, lookupRegistry_insert_self,
    populateLoop_log]
  simp [initialState]

/-- C5 witness: two `GET /a` declarations; after startup the registry
holds exactly the second one's handler (tag 1, the later population
invocation). -/
theorem C5_duplicate_key_last_wins_witness :
    (∃ d' ∈ [(⟨"GET", "/a", fun _ => fun _ _ _ => Json.str "first"⟩ : RouteRegistration)],
      (d'.method, d'.path) = ("GET", "/a")) ∧
    lookupRegistry
        (serverStart [⟨"GET", "/a", fun _ => fun _ _ _ => Json.str "first"⟩,
          ⟨"GET", "/a", fun _ => fun _ _ _ => Json.str "second"⟩]).registry
        ("GET", "/a")
      = some ⟨1, fun _ _ _ => Json.str "second"⟩ :=
  ⟨⟨⟨"GET", "/a", fun _ => fun _ _ _ => Json.str "first"⟩, List.mem_singleton.mpr rfl, rfl⟩,
    C5_duplicate_key_last_wins
      [⟨"GET", "/a", fun _ => fun _ _ _ => Json.str "first"⟩] []
      ⟨"GET", "/a", fun _ => fun _ _ _ => Json.str "second"⟩
      ⟨⟨"GET", "/a", fun _ => fun _ _ _ => Json.str "first"⟩, List.mem_singleton.mpr rfl, rfl⟩
      (fun d' hd' => absurd hd' (List.not_mem_nil d'))⟩

end Ferrox

namespace Ferrox

/-- C6: a matched request whose body is present but not parseable as
JSON is answered with the engine's client-error rejection — a fixed
response in which the bound handler's return value never occurs — and
the server state is unchanged: the handler is not invoked. -/
theorem C6_malformed_body_client_error (st : ServerState) (req : Request)
    (e : RouteEntry) (ps : List (String × String))
    (h : findRoute st.router req.method req.path = some (e, ps))
    (hb : req.body = RequestBody.malformed) :
    (handleRequest st req).1 = engineBodyRejection ∧
    (handleRequest st req).1.status = Status.clientError ∧
    (handleRequest st req).2 = st := by
  refine ⟨handleRequest_malformed st req e ps h hb, ?_, handleRequest_state st req⟩
  rw [handleRequest_malformed st req e ps h hb]
  rfl

/-- C6 witness: `POST /echo` with an unparseable body is rejected with
a client error. -/
theorem C6_malformed_body_client_error_witness :
    findRoute (serverStart [⟨"POST", "/echo", fun _ => fun _ _ b => b⟩]).router
        "POST" "/echo"
      = some (⟨"POST", "/echo", 1, fun _ _ b => b⟩, []) ∧
    ((⟨"POST", "/echo", [], RequestBody.malformed⟩ : Request).body
      = RequestBody.malformed) ∧
    ((handleRequest (serverStart [⟨"POST", "/echo", fun _ => fun _ _ b => b⟩])
        ⟨"POST", "/echo", [], RequestBody.malformed⟩).1 = engineBodyRejection ∧
      (handleRequest (serverStart [⟨"POST", "/echo", fun _ => fun _ _ b => b⟩])
        ⟨"POST", "/echo", [], RequestBody.malformed⟩).1.status = Status.clientError ∧
      (handleRequest (serverStart [⟨"POST", "/echo", fun _ => fun _ _ b => b⟩])
        ⟨"POST", "/echo", [], RequestBody.malformed⟩).2
        = serverStart [⟨"POST", "/echo", fun _ => fun _ _ b => b⟩]) :=
  ⟨rfl, rfl,
    C6_malformed_body_client_error
      (serverStart [⟨"POST", "/echo", fun _ => fun _ _ b => b⟩])
      ⟨"POST", "/echo", [], RequestBody.malformed⟩
      ⟨"POST", "/echo", 1, fun _ _ b => b⟩ [] rfl rfl⟩

/-- C7 counterexample: a declaration with the unrecognized method
string "FOO" is NOT treated as GET — no route is bound for it, and a
`GET /x` request is answered by the not-found fallback, never by the
declaration's handler (which returns the string "hi"). -/
theorem C7_counterexample :
    (serverStart [⟨"FOO", "/x", fun _ => fun _ _ _ => Json.str "hi"⟩]).router = [] ∧
    (handleRequest (serverStart [⟨"FOO", "/x", fun _ => fun _ _ _ => Json.str "hi"⟩])
        ⟨"GET", "/x", [], RequestBody.absent⟩).1 = notFoundResponse "/x" ∧
    (handleRequest (serverStart [⟨"FOO", "/x", fun _ => fun _ _ _ => Json.str "hi"⟩])
        ⟨"GET", "/x", [], RequestBody.absent⟩).1.body ≠ Json.str "hi" :=
  ⟨rfl, rfl, fun hc => Json.noConfusion hc⟩

/-- C7 (amended): a declaration whose method string is not one of the
seven recognized values is skipped at router binding — every bound
route has a recognized method, and a lone unrecognized declaration
yields an empty router (while its registry entry is still created);
the defaulting of unrecognized tokens to GET happens in the external
annotation mechanism before declarations reach the core. -/
theorem C7_unrecognized_method_not_bound :
    (∀ (decls : List RouteRegistration) (e : RouteEntry),
      e ∈ (serverStart decls).router → e.method ∈ sevenMethods) ∧
    (∀ d : RouteRegistration, d.method ∉ sevenMethods →
      (serverStart [d]).router = [] ∧
      lookupRegistry (serverStart [d]).registry (d.method, d.path)
        = some ⟨0, d.handler_fn ()⟩) := by
  constructor
  · intro decls e he
    rw [serverStart_router] at he
    rcases mem_boundRoutes decls decls.length e he with ⟨j, d, _, h1, _, _, _, h5⟩
    rw [h1]
    exact h5
  · intro d hd
    constructor
    · rw [serverStart_router]
      simp [boundRoutes, hd]
    · rw [serverStart_registry]
      simp only [populateLoop]
      exact lookupRegistry_insert_self _ _ _

/-- C7 (amended) witness: a GET declaration is bound and its entry's
method is recognized; the "FOO" declaration binds nothing yet its
handler sits in the registry. -/
theorem C7_unrecognized_method_not_bound_witness :
    ((⟨"GET", "/a", 1, fun _ _ _ => Json.null⟩ : RouteEntry)
        ∈ (serverStart [⟨"GET", "/a", fun _ => fun _ _ _ => Json.null⟩]).router) ∧
    (⟨"GET", "/a", 1, fun _ _ _ => Json.null⟩ : RouteEntry).method ∈ sevenMethods ∧
    ("FOO" ∉ sevenMethods) ∧
    ((serverStart [⟨"FOO", "/x", fun _ => fun _ _ _ => Json.str "hi"⟩]).router = [] ∧
      lookupRegistry
          (serverStart [⟨"FOO", "/x", fun _ => fun _ _ _ => Json.str "hi"⟩]).registry
          ("FOO", "/x")
        = some ⟨0, fun _ _ _ => Json.str "hi"⟩) := by
  refine ⟨List.Mem.head _, ?_, ?_, ?_⟩
  · exact C7_unrecognized_method_not_bound.1
      [⟨"GET", "/a", fun _ => fun _ _ _ => Json.null⟩]
      ⟨"GET", "/a", 1, fun _ _ _ => Json.null⟩ (List.Mem.head _)
  · decide
  · exact C7_unrecognized_method_not_bound.2
      ⟨"FOO", "/x", fun _ => fun _ _ _ => Json.str "hi"⟩ (by decide)

/-- C8: the route table is never written after population — the router
binding phase leaves the registry exactly as population produced it,
and handling a request returns the server state (registry included)
unchanged. -/
theorem C8_registry_read_only (decls : List RouteRegistration)
    (st : ServerState) (req : Request) :
    (serverStart decls).registry = (populateLoop decls 0 initialState).registry ∧
    (handleRequest st req).2.registry = st.registry ∧
    (handleRequest st req).2 = st :=
  ⟨serverStart_registry decls, by rw [handleRequest_state], handleRequest_state st req⟩

/-- C9: for every matched request (not rejected for a malformed body),
the handler is invoked with exactly the three containers in the fixed
order (path, query, body), and the query container is a JSON object
whose values are all JSON strings. -/
theorem C9_argument_order_query_strings (st : ServerState) (req : Request)
    (e : RouteEntry) (ps : List (String × String))
    (h : findRoute st.router req.method req.path = some (e, ps))
    (hb : req.body ≠ RequestBody.malformed) :
    (handleRequest st req).1
      = ⟨Status.ok,
          e.handler (paramsContainer ps) (paramsContainer req.query) (parsedBody req.body)⟩ ∧
    ∃ fields, paramsContainer req.query = Json.obj fields ∧
      ∀ f ∈ fields, ∃ s, f.2 = Json.str s :=
  ⟨handleRequest_matched st req e ps h hb, paramsContainer_strings req.query⟩

/-- C9 witness: `GET /search?q=42` — the handler gets (path, query,
body) in order and the query value is the JSON string "42". -/
theorem C9_argument_order_query_strings_witness :
    findRoute (serverStart [⟨"GET", "/search", fun _ => fun _ q _ => q⟩]).router
        "GET" "/search"
      = some (⟨"GET", "/search", 1, fun _ q _ => q⟩, []) ∧
    (RequestBody.absent ≠ RequestBody.malformed) ∧
    ((handleRequest (serverStart [⟨"GET", "/search", fun _ => fun _ q _ => q⟩])
        ⟨"GET", "/search", [("q", "42")], RequestBody.absent⟩).1
        = ⟨Status.ok,
            (fun _ q _ => q : Handler) (paramsContainer []) (paramsContainer [("q", "42")])
              (parsedBody RequestBody.absent)⟩ ∧
      ∃ fields, paramsContainer [("q", "42")] = Json.obj fields ∧
        ∀ f ∈ fields, ∃ s, f.2 = Json.str s) :=
  ⟨rfl, fun hc => RequestBody.noConfusion hc,
    C9_argument_order_query_strings
      (serverStart [⟨"GET", "/search", fun _ => fun _ q _ => q⟩])
      ⟨"GET", "/search", [("q", "42")], RequestBody.absent⟩
      ⟨"GET", "/search", 1, fun _ q _ => q⟩ []
      rfl (fun hc => RequestBody.noConfusion hc)⟩

/-- C10: request dispatch never reads the global registry. At startup
every declaration's factory is called exactly twice (the log is two
passes over the declaration positions); handling a request performs no
factory call; the response is invariant under any replacement of the
registry; every bound route's handler is the one produced by the
binding-pass invocation of its declaration's factory (tag
`decls.length + j` for the declaration at position `j`); and every
registry entry carries a population-pass tag (< `decls.length`), so no
bound handler is the registry's. -/
theorem C10_dispatch_bypasses_registry (decls : List RouteRegistration)
    (st : ServerState) (req : Request) (reg : Registry) :
    (serverStart decls).factoryLog
        = List.range decls.length ++ List.range decls.length ∧
    (handleRequest st req).2.factoryLog = st.factoryLog ∧
    (handleRequest { st with registry := reg } req).1 = (handleRequest st req).1 ∧
    (∀ e ∈ (serverStart decls).router, ∃ j d, decls.get? j = some d ∧
      e.method = d.method ∧ e.template = d.path ∧ e.tag = decls.length + j ∧
      e.handler = d.handler_fn ()) ∧
    (∀ k v, lookupRegistry (serverStart decls).registry k = some v →
      v.tag < decls.length) := by
  refine ⟨serverStart_log decls, by rw [handleRequest_state],
    handleRequest_registry_congr st req reg, ?_,
    fun k v hv => lookupRegistry_tag_lt decls k v hv⟩
  intro e he
  rw [serverStart_router] at he
  rcases mem_boundRoutes decls decls.length e he with ⟨j, d, hj, h1, h2, h3, h4, _⟩
  exact ⟨j, d, hj, h1, h2, h3, h4⟩

/-- C10 witness: with one declaration, the factory log is two passes
over position 0, the bound route's handler carries the binding-pass tag
1, and the registry entry carries the population-pass tag 0. -/
theorem C10_dispatch_bypasses_registry_witness :
    ((⟨"GET", "/a", 1, fun _ _ _ => Json.null⟩ : RouteEntry)
        ∈ (serverStart [⟨"GET", "/a", fun _ => fun _ _ _ => Json.null⟩]).router) ∧
    (serverStart [⟨"GET", "/a", fun _ => fun _ _ _ => Json.null⟩]).factoryLog
        = List.range 1 ++ List.range 1 ∧
    (∃ j d, [(⟨"GET", "/a", fun _ => fun _ _ _ => Json.null⟩ : RouteRegistration)].get? j
          = some d ∧
        (⟨"GET", "/a", 1, fun _ _ _ => Json.null⟩ : RouteEntry).method = d.method ∧
        (⟨"GET", "/a", 1, fun _ _ _ => Json.null⟩ : RouteEntry).template = d.path ∧
        (⟨"GET", "/a", 1, fun _ _ _ => Json.null⟩ : RouteEntry).tag
          = [(⟨"GET", "/a", fun _ => fun _ _ _ => Json.null⟩ : RouteRegistration)].length + j ∧
        (⟨"GET", "/a", 1, fun _ _ _ => Json.null⟩ : RouteEntry).handler
          = d.handler_fn ()) ∧
    (lookupRegistry
        (serverStart [⟨"GET", "/a", fun _ => fun _ _ _ => Json.null⟩]).registry
        ("GET", "/a") = some ⟨0, fun _ _ _ => Json.null⟩) ∧
    ((⟨0, fun _ _ _ => Json.null⟩ : TaggedHandler).tag
        < [(⟨"GET", "/a", fun _ => fun _ _ _ => Json.null⟩ : RouteRegistration)].length) := by
  refine ⟨List.Mem.head _, ?_, ?_, rfl, ?_⟩
  · exact (C10_dispatch_bypasses_registry
      [⟨"GET", "/a", fun _ => fun _ _ _ => Json.null⟩]
      ⟨[], [], []⟩ ⟨"GET", "/a", [], RequestBody.absent⟩ []).1
  · exact (C10_dispatch_bypasses_registry
      [⟨"GET", "/a", fun _ => fun _ _ _ => Json.null⟩]
      ⟨[], [], []⟩ ⟨"GET", "/a", [], RequestBody.absent⟩ []).2.2.2.1
      ⟨"GET", "/a", 1, fun _ _ _ => Json.null⟩ (List.Mem.head _)
  · exact (C10_dispatch_bypasses_registry
      [⟨"GET", "/a", fun _ => fun _ _ _ => Json.null⟩]
      ⟨[], [], []⟩ ⟨"GET", "/a", [], RequestBody.absent⟩ []).2.2.2.2
      ("GET", "/a") ⟨0, fun _ _ _ => Json.null⟩ rfl

end Ferrox
